import Mathlib

/-!
Shallow embedding of the order-book client (`src/hooks/useOrders.ts` and
`src/components/edit-order-modal.tsx`): the order-list cache with pagination
and notification reconciliation, and the edit-form autofill controller.
Numbers: tiers/amounts are `Int` (JS integers in range), prices are `Rat`
(JS decimals), identifiers and enumerated string fields stay `String` as in
the source.
-/

/-- Mirrors the nested `creator`/`claimer` object of `Order` in
`useOrders.ts`: `{ id, discordName, inGameName }`. -/
structure UserRef where
  id : String
  discordName : String
  inGameName : Option String
deriving DecidableEq, Repr

/-- Mirrors the `User` interface of `useOrders.ts`. -/
structure User where
  id : String
  discordId : String
  discordName : String
  inGameName : Option String
deriving DecidableEq, Repr

/-- Mirrors the `Order` interface of `useOrders.ts`.  `claimer` is optional
and nullable in TS; both absent and `null` are modelled as `none`. -/
structure Order where
  id : String
  itemName : String
  tier : Int
  pricePerUnit : Rat
  amount : Int
  orderType : String
  status : String
  createdAt : String
  fulfilledAt : Option String
  creator : UserRef
  claimer : Option UserRef
deriving DecidableEq, Repr

/-- A TS `Partial<Order>` value (`updates` in `updateOrder`): each field is
present (`some`) or absent (`none`).  For the nullable fields the inner
`Option` is the value written (`claimer: null` is `some none`). -/
structure OrderPatch where
  id : Option String := none
  itemName : Option String := none
  tier : Option Int := none
  pricePerUnit : Option Rat := none
  amount : Option Int := none
  orderType : Option String := none
  status : Option String := none
  createdAt : Option String := none
  fulfilledAt : Option (Option String) := none
  creator : Option UserRef := none
  claimer : Option (Option UserRef) := none
deriving DecidableEq, Repr

/-- The JS object spread `{ ...order, ...updates }`: every field present in
the patch overwrites the order's field. -/
def applyPatch (o : Order) (p : OrderPatch) : Order where
  id := p.id.getD o.id
  itemName := p.itemName.getD o.itemName
  tier := p.tier.getD o.tier
  pricePerUnit := p.pricePerUnit.getD o.pricePerUnit
  amount := p.amount.getD o.amount
  orderType := p.orderType.getD o.orderType
  status := p.status.getD o.status
  createdAt := p.createdAt.getD o.createdAt
  fulfilledAt := p.fulfilledAt.getD o.fulfilledAt
  creator := p.creator.getD o.creator
  claimer := p.claimer.getD o.claimer

/-- Core of `updateOrder` (useOrders.ts lines 149-158):
`prev.map(order => order.id === orderId ? { ...order, ...updates } : order)`. -/
def updateOrderList (orderId : String) (updates : OrderPatch) (orders : List Order) :
    List Order :=
  orders.map fun o => if o.id = orderId then applyPatch o updates else o

/-- Core of `removeOrder` (useOrders.ts lines 160-162):
`prev.filter(order => order.id !== orderId)`. -/
def removeOrderList (orderId : String) (orders : List Order) : List Order :=
  orders.filter fun o => o.id ≠ orderId

/-- The shape of the event payload `event.detail.claimer` in the
notification handler: `{ id, name, inGameName }`, with `name` possibly
missing. -/
structure ClaimerPayload where
  id : String
  name : Option String
  inGameName : Option String
deriving DecidableEq, Repr

/-- The slice of `event.detail.orderDetails` the handler reads. -/
structure OrderDetails where
  orderType : String
deriving DecidableEq, Repr

/-- The notification event `event.detail`:
`{ orderId, notificationType, orderDetails, claimer }`. -/
structure OrderNotification where
  orderId : String
  notificationType : String
  orderDetails : OrderDetails
  claimer : Option ClaimerPayload
deriving DecidableEq, Repr

/-- A pending `setTimeout` callback scheduled by the handler: remove the
order with the given id after `delayMs` milliseconds. -/
structure ScheduledRemoval where
  delayMs : Nat
  removeId : String
deriving DecidableEq, Repr

/-- JS `claimer.name || "Unknown"`: a missing or empty name falls back to
`"Unknown"` (the empty string is falsy in JS). -/
def nameOrUnknown : Option String → String
  | none => "Unknown"
  | some n => if n = "" then "Unknown" else n

/-- The claimer object the handler stores:
`claimer ? { id, discordName: claimer.name || "Unknown", inGameName } : null`. -/
def claimerFromPayload : Option ClaimerPayload → Option UserRef
  | none => none
  | some c => some ⟨c.id, nameOrUnknown c.name, c.inGameName⟩

/-- The `statusUpdate` patch built for an `order_claimed` notification
(useOrders.ts lines 183-205). -/
def claimPatch (ev : OrderNotification) : OrderPatch :=
  { status := some (if ev.orderDetails.orderType = "SELL"
      then "READY_TO_TRADE" else "IN_PROGRESS"),
    claimer := some (claimerFromPayload ev.claimer) }

/-- `handleOrderStatusUpdate` (useOrders.ts lines 176-230) as a pure step:
given the notification and the current order list it returns the new list
together with the `setTimeout` removals it schedules.  The `switch` default
leaves `statusUpdate` empty, and the `Object.keys(statusUpdate).length > 0`
guard then skips the update entirely. -/
def handleOrderStatusUpdate (ev : OrderNotification) (orders : List Order) :
    List Order × List ScheduledRemoval :=
  if ev.notificationType = "order_claimed" then
    (updateOrderList ev.orderId (claimPatch ev) orders, [])
  else if ev.notificationType = "order_ready" then
    (updateOrderList ev.orderId { status := some "READY_TO_TRADE" } orders, [])
  else if ev.notificationType = "order_completed" then
    (updateOrderList ev.orderId { status := some "FULFILLED" } orders,
      [⟨1000, ev.orderId⟩])
  else if ev.notificationType = "order_cancelled" then
    (updateOrderList ev.orderId { status := some "OPEN", claimer := some none } orders, [])
  else
    (orders, [])

/-- The fetch response shape `OrdersResponse` of useOrders.ts. -/
structure OrdersResponse where
  orders : List Order
  totalCount : Int
  hasMore : Bool
  page : Int
  limit : Int
  currentUser : Option User
deriving DecidableEq, Repr

/-- Outcome of one `fetch('/api/orders?...')` round trip: a parsed ok
response (together with the outcome of the fallback `/api/user` request,
`none` when that request failed or was never honored), a non-ok HTTP
response, or a thrown network error. -/
inductive FetchOutcome where
  | ok (resp : OrdersResponse) (userFallback : Option User)
  | httpError
  | thrown
deriving DecidableEq, Repr

/-- The full state of the `useOrders` hook: the six `useState` cells, the
two refs, the multiset of in-flight `/api/orders` requests (page, reset)
and the pending `setTimeout` removals. -/
structure HookState where
  orders : List Order
  loading : Bool
  currentUser : Option User
  hasMore : Bool
  totalCount : Int
  page : Int
  isLoadingRef : Bool
  hasInitializedRef : Bool
  pending : List (Int × Bool)
  timers : List ScheduledRemoval
deriving DecidableEq, Repr

/-- Hook state at mount: `useState([])`, `useState(true)`, `useState(null)`,
`useState(false)`, `useState(0)`, `useState(1)`, refs `false`. -/
def initState : HookState where
  orders := []
  loading := true
  currentUser := none
  hasMore := false
  totalCount := 0
  page := 1
  isLoadingRef := false
  hasInitializedRef := false
  pending := []
  timers := []

/-- The synchronous prefix of `fetchOrders(pageNum, reset)` (useOrders.ts
lines 71-86), up to the `await fetch`: the guard
`if (!session?.user?.id || isLoadingRef.current) return;` makes the call a
no-op, otherwise the in-flight flag is raised, `setLoading(pageNum === 1)`
runs, and one network request is issued. -/
def fetchOrdersCall (s : HookState) (pageNum : Int) (reset : Bool)
    (hasSession : Bool) : HookState :=
  if !hasSession || s.isLoadingRef then s
  else
    { s with
      isLoadingRef := true
      loading := pageNum == 1
      pending := s.pending ++ [(pageNum, reset)] }

/-- The continuation of `fetchOrders` after the `await` (useOrders.ts lines
87-121), run when the oldest in-flight request settles with the given
outcome.  On ok: page 1 / reset replaces the cached list, a later page is
appended, `hasMore`/`totalCount` come from the response, `page` is the
requested page number, and `currentUser` is filled from the response or the
fallback request.  On a non-ok response or a thrown error nothing but the
`finally` block runs.  Either way the `finally` block clears `loading` and
the in-flight flag. -/
def fetchOrdersResolve (s : HookState) (out : FetchOutcome) : HookState :=
  match s.pending with
  | [] => s
  | (pageNum, reset) :: rest =>
    match out with
    | .ok resp userFallback =>
      { s with
        orders := if reset || pageNum == 1 then resp.orders
                  else s.orders ++ resp.orders
        hasMore := resp.hasMore
        totalCount := resp.totalCount
        page := pageNum
        currentUser :=
          match resp.currentUser with
          | some u => some u
          | none => match userFallback with
                    | some u => some u
                    | none => s.currentUser
        loading := false
        isLoadingRef := false
        pending := rest }
    | .httpError => { s with loading := false, isLoadingRef := false, pending := rest }
    | .thrown => { s with loading := false, isLoadingRef := false, pending := rest }

/-- `loadMore` (useOrders.ts lines 136-140). -/
def loadMoreCall (s : HookState) (hasSession : Bool) : HookState :=
  if s.hasMore && !s.loading && !s.isLoadingRef then
    fetchOrdersCall s (s.page + 1) false hasSession
  else s

/-- `refetch` (useOrders.ts lines 142-147): clears the one-shot init guard
and forces a page-1 reset load. -/
def refetchCall (s : HookState) (hasSession : Bool) : HookState :=
  if !s.isLoadingRef then
    fetchOrdersCall { s with hasInitializedRef := false } 1 true hasSession
  else s

/-- The initial-load effect (useOrders.ts lines 127-134): runs once per
established session, skipped while the session is still resolving. -/
def initialLoadEffect (s : HookState) (hasSession : Bool)
    (statusLoading : Bool) : HookState :=
  if statusLoading || s.hasInitializedRef then s
  else if hasSession then
    fetchOrdersCall { s with hasInitializedRef := true } 1 true hasSession
  else s

/-- An event the hook can process: a `fetchOrders` invocation, the
settlement of the oldest in-flight request, `loadMore`, `refetch`, the
mount effect, a notification, a direct `updateOrder`/`removeOrder` call, or
a scheduled removal timer firing. -/
inductive HookEvent where
  | fetchCall (pageNum : Int) (reset : Bool) (hasSession : Bool)
  | fetchResolve (out : FetchOutcome)
  | loadMore (hasSession : Bool)
  | refetch (hasSession : Bool)
  | initialLoad (hasSession : Bool) (statusLoading : Bool)
  | notify (ev : OrderNotification)
  | update (orderId : String) (updates : OrderPatch)
  | remove (orderId : String)
  | timerFire (t : ScheduledRemoval)
deriving DecidableEq, Repr

/-- One step of the hook: dispatch an event against the current state.  A
timer may fire only if it is actually pending. -/
def stepHook (s : HookState) : HookEvent → HookState
  | .fetchCall pageNum reset hasSession => fetchOrdersCall s pageNum reset hasSession
  | .fetchResolve out => fetchOrdersResolve s out
  | .loadMore hasSession => loadMoreCall s hasSession
  | .refetch hasSession => refetchCall s hasSession
  | .initialLoad hasSession statusLoading => initialLoadEffect s hasSession statusLoading
  | .notify ev =>
    let r := handleOrderStatusUpdate ev s.orders
    { s with orders := r.1, timers := s.timers ++ r.2 }
  | .update orderId updates => { s with orders := updateOrderList orderId updates s.orders }
  | .remove orderId => { s with orders := removeOrderList orderId s.orders }
  | .timerFire t =>
    if t ∈ s.timers then
      { s with orders := removeOrderList t.removeId s.orders, timers := s.timers.erase t }
    else s

/-- Run the hook from a state through a sequence of events. -/
def runHook (s : HookState) (evs : List HookEvent) : HookState :=
  evs.foldl stepHook s

/-- The `formData` state of `EditOrderModal` (edit-order-modal.tsx lines
65-70). -/
structure FormData where
  tier : Int
  pricePerUnit : Rat
  amount : Int
  orderType : String
deriving DecidableEq, Repr

/-- The full controller state of `EditOrderModal`: `formData` plus the
three boolean flags and the `lastPriceUpdateRef` string cell (initial value
`""`). -/
structure ModalState where
  formData : FormData
  userEditedPrice : Bool
  formInitialized : Bool
  tierChanged : Bool
  lastPriceUpdate : String
deriving DecidableEq, Repr

/-- Modal state at mount: `useState({tier: 1, pricePerUnit: 0, amount: 1,
orderType: "BUY"})`, flags `false`, ref `""`. -/
def initModalState : ModalState where
  formData := ⟨1, 0, 1, "BUY"⟩
  userEditedPrice := false
  formInitialized := false
  tierChanged := false
  lastPriceUpdate := ""

/-- Rendering of the oracle price into the template string
template string: JS prints `null` for a missing price. -/
def priceText : Option Rat → String
  | none => "null"
  | some q => toString q

/-- The key "itemName-tier-currentPrice" computed by the autofill effect
(edit-order-modal.tsx line 129). -/
def priceKey (itemName : String) (tier : Int) (currentPrice : Option Rat) : String :=
  itemName ++ "-" ++ toString tier ++ "-" ++ priceText currentPrice

/-- The reset-on-order-change effect (edit-order-modal.tsx lines 99-113):
when an order is loaded the form mirrors its fields, all flags and the ref
are cleared, and the form is marked initialized. -/
def resetFormEffect (order : Option Order) (s : ModalState) : ModalState :=
  match order with
  | none => s
  | some o =>
    { formData := ⟨o.tier, o.pricePerUnit, o.amount, o.orderType⟩
      userEditedPrice := false
      formInitialized := true
      tierChanged := false
      lastPriceUpdate := "" }

/-- The auto-populate effect (edit-order-modal.tsx lines 126-152), with the
pricing oracle's answer for `(order.itemName, formData.tier)` passed in as
`currentPrice`.  Bails out if no order is loaded or the form is not yet
initialized; no-ops when the key matches `lastPriceUpdateRef`; otherwise
fires exactly when the price was not manually edited, the tier has changed,
and the oracle price is non-null. -/
def autofillEffect (order : Option Order) (currentPrice : Option Rat)
    (s : ModalState) : ModalState :=
  match order with
  | none => s
  | some o =>
    if !s.formInitialized then s
    else
      let newPriceKey := priceKey o.itemName s.formData.tier currentPrice
      if s.lastPriceUpdate = newPriceKey then s
      else if !s.userEditedPrice && s.tierChanged then
        match currentPrice with
        | some p =>
          { s with
            formData := { s.formData with pricePerUnit := p }
            lastPriceUpdate := newPriceKey }
        | none => s
      else s

/-- `handleTierChange` (edit-order-modal.tsx lines 176-187): set the tier,
mark the tier changed, reset the manual-edit flag, clear the ref. -/
def handleTierChange (value : Int) (s : ModalState) : ModalState :=
  { s with
    formData := { s.formData with tier := value }
    tierChanged := true
    userEditedPrice := false
    lastPriceUpdate := "" }

/-- `handlePriceChange` (edit-order-modal.tsx lines 189-196), with the
input string already parsed: `parseFloat(value) || 0` is the parsed number,
or `0` when parsing fails (or yields `0`, which is falsy). -/
def handlePriceChange (parsed : Option Rat) (s : ModalState) : ModalState :=
  { s with
    formData := { s.formData with pricePerUnit := parsed.getD 0 }
    userEditedPrice := true }

/-- Result of a submit attempt: blocked with an `alert` message, or the
form data handed to `onConfirm`. -/
inductive SubmitResult where
  | rejected (msg : String)
  | confirmed (f : FormData)
deriving DecidableEq, Repr

/-- `handleSubmit` validation (edit-order-modal.tsx lines 154-174). -/
def handleSubmit (f : FormData) : SubmitResult :=
  if f.tier < 1 ∨ f.tier > 10 then
    .rejected "Tier must be between 1 and 10"
  else if f.pricePerUnit ≤ 0 then
    .rejected "Price must be greater than 0"
  else if f.amount ≤ 0 then
    .rejected "Amount must be greater than 0"
  else
    .confirmed f

/-! Helper lemmas (shared). -/

theorem optionGetD_idem {α : Type} (a : Option α) (b : α) :
    a.getD (a.getD b) = a.getD b := by
  cases a <;> rfl

theorem applyPatch_applyPatch (o : Order) (p : OrderPatch) :
    applyPatch (applyPatch o p) p = applyPatch o p := by
  simp [applyPatch, optionGetD_idem]

theorem applyPatch_id_of_none (o : Order) (p : OrderPatch) (h : p.id = none) :
    (applyPatch o p).id = o.id := by
  simp [applyPatch, h]

theorem updateOrderList_idem (orderId : String) (p : OrderPatch) (orders : List Order) :
    updateOrderList orderId p (updateOrderList orderId p orders) =
      updateOrderList orderId p orders := by
  unfold updateOrderList
  rw [List.map_map]
  refine List.map_congr_left fun o _ => ?_
  simp only [Function.comp_apply]
  by_cases h : o.id = orderId
  · rw [if_pos h]
    by_cases h2 : (applyPatch o p).id = orderId
    · rw [if_pos h2, applyPatch_applyPatch]
    · rw [if_neg h2]
  · rw [if_neg h, if_neg h]

theorem updateOrderList_of_not_mem (orderId : String) (p : OrderPatch)
    (orders : List Order) (h : ∀ o ∈ orders, o.id ≠ orderId) :
    updateOrderList orderId p orders = orders := by
  unfold updateOrderList
  induction orders with
  | nil => rfl
  | cons o os ih =>
    simp only [List.map_cons]
    rw [if_neg (h o (by simp)), ih (fun x hx => h x (by simp [hx]))]

theorem updateOrderList_length (orderId : String) (p : OrderPatch) (orders : List Order) :
    (updateOrderList orderId p orders).length = orders.length :=
  List.length_map _ _

theorem updateOrderList_map_id (orderId : String) (p : OrderPatch)
    (orders : List Order) (h : p.id = none) :
    (updateOrderList orderId p orders).map (fun o => o.id) =
      orders.map (fun o => o.id) := by
  unfold updateOrderList
  rw [List.map_map]
  refine List.map_congr_left fun o _ => ?_
  by_cases h2 : o.id = orderId
  · simp [h2, applyPatch_id_of_none _ _ h]
  · simp [h2]

/-- C4: applying `updateOrder(id, P)` twice in succession yields exactly the
same list state as applying it once; if no entry has that id the list is
unchanged; and entries whose id differs are unchanged by the operation. -/
theorem C4_updateOrder_idempotent_noop_frame (orders : List Order)
    (orderId : String) (p : OrderPatch) :
    updateOrderList orderId p (updateOrderList orderId p orders) =
        updateOrderList orderId p orders
    ∧ ((∀ o ∈ orders, o.id ≠ orderId) → updateOrderList orderId p orders = orders)
    ∧ (updateOrderList orderId p orders).length = orders.length
    ∧ ∀ i (hi : i < (updateOrderList orderId p orders).length)
        (hj : i < orders.length), (orders.get ⟨i, hj⟩).id ≠ orderId →
          (updateOrderList orderId p orders).get ⟨i, hi⟩ = orders.get ⟨i, hj⟩ := by
  refine ⟨updateOrderList_idem _ _ _, updateOrderList_of_not_mem _ _ _,
    updateOrderList_length _ _ _, ?_⟩
  intro i hi hj hne
  simp only [updateOrderList, List.get_eq_getElem, List.getElem_map]
  rw [if_neg]
  exact fun hcontra => hne (by simpa [List.get_eq_getElem] using hcontra)

/-- A sample order used to instantiate hypothesis-bearing theorems. -/
def oA : Order :=
  ⟨"a", "fish", 3, 5, 10, "BUY", "OPEN", "t0", none, ⟨"u1", "alice", none⟩, none⟩

/-- A second sample order with a different id. -/
def oB : Order :=
  ⟨"b", "chips", 2, 7, 4, "SELL", "OPEN", "t1", none, ⟨"u2", "bob", none⟩, none⟩

/-- A sample patch (no id change). -/
def pStatus : OrderPatch := { status := some "IN_PROGRESS" }

theorem C4_witness :
    updateOrderList "z" pStatus (updateOrderList "z" pStatus [oA]) =
        updateOrderList "z" pStatus [oA]
    ∧ updateOrderList "z" pStatus [oA] = [oA]
    ∧ (updateOrderList "z" pStatus [oA]).get ⟨0, by decide⟩ = [oA].get ⟨0, by decide⟩ :=
  ⟨(C4_updateOrder_idempotent_noop_frame [oA] "z" pStatus).1,
   (C4_updateOrder_idempotent_noop_frame [oA] "z" pStatus).2.1 (by decide),
   (C4_updateOrder_idempotent_noop_frame [oA] "z" pStatus).2.2.2 0 (by decide)
     (by decide) (by decide)⟩

/-- C6: submit validation rejects the draft, with a distinct message per
violated field, exactly when `tier < 1`, `tier > 10`, `pricePerUnit ≤ 0` or
`amount ≤ 0`; on pass the four-field draft is handed unchanged to the
confirm callback. -/
theorem C6_handleSubmit_validation (f : FormData) :
    (handleSubmit f = .confirmed f ↔
      (1 ≤ f.tier ∧ f.tier ≤ 10 ∧ 0 < f.pricePerUnit ∧ 0 < f.amount))
    ∧ ((∃ m, handleSubmit f = .rejected m) ↔
      (f.tier < 1 ∨ 10 < f.tier ∨ f.pricePerUnit ≤ 0 ∨ f.amount ≤ 0))
    ∧ (f.tier < 1 ∨ 10 < f.tier →
      handleSubmit f = .rejected "Tier must be between 1 and 10")
    ∧ (1 ≤ f.tier → f.tier ≤ 10 → f.pricePerUnit ≤ 0 →
      handleSubmit f = .rejected "Price must be greater than 0")
    ∧ (1 ≤ f.tier → f.tier ≤ 10 → 0 < f.pricePerUnit → f.amount ≤ 0 →
      handleSubmit f = .rejected "Amount must be greater than 0")
    ∧ ("Tier must be between 1 and 10" : String) ≠ "Price must be greater than 0"
    ∧ ("Tier must be between 1 and 10" : String) ≠ "Amount must be greater than 0"
    ∧ ("Price must be greater than 0" : String) ≠ "Amount must be greater than 0" := by
  unfold handleSubmit
  split_ifs with h1 h2 h3
  · refine ⟨⟨fun hc => by simp at hc, fun hv => ?_⟩,
      ⟨fun _ => ?_, fun _ => ⟨_, rfl⟩⟩, fun _ => rfl, ?_, ?_,
      by decide, by decide, by decide⟩
    · obtain ⟨ha, hb, _, _⟩ := hv
      exfalso; rcases h1 with h | h <;> omega
    · rcases h1 with h | h
      · exact Or.inl h
      · exact Or.inr (Or.inl h)
    · intro ha hb _; exfalso; rcases h1 with h | h <;> omega
    · intro ha hb _ _; exfalso; rcases h1 with h | h <;> omega
  · refine ⟨⟨fun hc => by simp at hc, fun hv => absurd hv.2.2.1 (not_lt.mpr h2)⟩,
      ⟨fun _ => Or.inr (Or.inr (Or.inl h2)), fun _ => ⟨_, rfl⟩⟩, ?_,
      fun _ _ _ => rfl, ?_, by decide, by decide, by decide⟩
    · intro h; exfalso; push_neg at h1; rcases h with h | h <;> omega
    · intro _ _ hp _; exact absurd h2 (not_le.mpr hp)
  · refine ⟨⟨fun hc => by simp at hc, fun hv => by exfalso; omega⟩,
      ⟨fun _ => Or.inr (Or.inr (Or.inr h3)), fun _ => ⟨_, rfl⟩⟩, ?_, ?_,
      fun _ _ _ _ => rfl, by decide, by decide, by decide⟩
    · intro h; exfalso; push_neg at h1; rcases h with h | h <;> omega
    · intro _ _ hp; exact absurd hp h2
  · push_neg at h1
    refine ⟨⟨fun _ => ⟨by omega, by omega, not_le.mp h2, by omega⟩, fun _ => rfl⟩,
      ⟨?_, ?_⟩, ?_, ?_, ?_, by decide, by decide, by decide⟩
    · rintro ⟨m, hm⟩; simp at hm
    · intro h
      exfalso
      rcases h with h | h | h | h
      · omega
      · omega
      · exact h2 h
      · exact h3 h
    · intro h; exfalso; rcases h with h | h <;> omega
    · intro _ _ hp; exact absurd hp h2
    · intro _ _ _ ha; exact absurd ha h3

theorem C6_witness :
    handleSubmit ⟨1, 1/1000, 1, "BUY"⟩ = .confirmed ⟨1, 1/1000, 1, "BUY"⟩
    ∧ handleSubmit ⟨10, 1/1000, 1, "SELL"⟩ = .confirmed ⟨10, 1/1000, 1, "SELL"⟩
    ∧ handleSubmit ⟨0, 5, 1, "BUY"⟩ = .rejected "Tier must be between 1 and 10"
    ∧ handleSubmit ⟨11, 5, 1, "BUY"⟩ = .rejected "Tier must be between 1 and 10"
    ∧ handleSubmit ⟨10, 0, 1, "SELL"⟩ = .rejected "Price must be greater than 0"
    ∧ handleSubmit ⟨10, 5, 0, "SELL"⟩ = .rejected "Amount must be greater than 0" :=
  ⟨(C6_handleSubmit_validation ⟨1, 1/1000, 1, "BUY"⟩).1.mpr (by norm_num),
   (C6_handleSubmit_validation ⟨10, 1/1000, 1, "SELL"⟩).1.mpr (by norm_num),
   (C6_handleSubmit_validation ⟨0, 5, 1, "BUY"⟩).2.2.1 (Or.inl (by norm_num)),
   (C6_handleSubmit_validation ⟨11, 5, 1, "BUY"⟩).2.2.1 (Or.inr (by norm_num)),
   (C6_handleSubmit_validation ⟨10, 0, 1, "SELL"⟩).2.2.2.1 (by norm_num) (by norm_num) le_rfl,
   (C6_handleSubmit_validation ⟨10, 5, 0, "SELL"⟩).2.2.2.2.1 (by norm_num) (by norm_num)
     (by norm_num) le_rfl⟩

theorem priceKey_ne_empty (n : String) (t : Int) (c : Option Rat) :
    priceKey n t c ≠ "" := by
  intro h
  have h2 := congrArg String.length h
  have h3 : ("-" : String).length = 1 := rfl
  have h4 : ("" : String).length = 0 := rfl
  simp only [priceKey, String.length_append] at h2
  omega

theorem autofillEffect_fires (o : Order) (p : Rat) (s : ModalState)
    (hInit : s.formInitialized = true)
    (hkey : s.lastPriceUpdate ≠ priceKey o.itemName s.formData.tier (some p))
    (hedit : s.userEditedPrice = false) (htier : s.tierChanged = true) :
    autofillEffect (some o) (some p) s =
      { s with
        formData := { s.formData with pricePerUnit := p }
        lastPriceUpdate := priceKey o.itemName s.formData.tier (some p) } := by
  simp [autofillEffect, hInit, hkey, hedit, htier]

/-- C2: once a draft is loaded (form initialized), the autofill effect is a
no-op when the computed key equals the recorded one; otherwise it
overwrites `pricePerUnit` with the oracle price and records the key exactly
when the price was not manually edited, the tier was changed since open,
and the oracle price is non-null; in particular it never fires in the
Pristine state, so it never fires right after an order is loaded. -/
theorem C2_autofill_guard (o : Order) (cp : Option Rat) (s : ModalState)
    (hInit : s.formInitialized = true) :
    (s.lastPriceUpdate = priceKey o.itemName s.formData.tier cp →
      autofillEffect (some o) cp s = s)
    ∧ (∀ p, cp = some p →
        s.lastPriceUpdate ≠ priceKey o.itemName s.formData.tier cp →
        s.userEditedPrice = false → s.tierChanged = true →
        autofillEffect (some o) cp s =
          { s with
            formData := { s.formData with pricePerUnit := p }
            lastPriceUpdate := priceKey o.itemName s.formData.tier cp })
    ∧ (s.userEditedPrice = true ∨ s.tierChanged = false ∨ cp = none →
        autofillEffect (some o) cp s = s)
    ∧ (s.tierChanged = false → autofillEffect (some o) cp s = s)
    ∧ (∀ cp2, autofillEffect (some o) cp2 (resetFormEffect (some o) s) =
        resetFormEffect (some o) s) := by
  refine ⟨?_, ?_, ?_, ?_, ?_⟩
  · intro hkey
    simp [autofillEffect, hInit, hkey]
  · intro p hp hkey hedit htier
    subst hp
    exact autofillEffect_fires o p s hInit hkey hedit htier
  · intro hcases
    rcases hcases with h | h | h
    · simp [autofillEffect, hInit, h]
    · simp [autofillEffect, hInit, h]
    · subst h
      simp only [autofillEffect, hInit, Bool.not_true, Bool.false_eq_true, if_false]
      split
      · rfl
      · split
        · rfl
        · rfl
  · intro h
    simp [autofillEffect, hInit, h]
  · intro cp2
    simp [autofillEffect, resetFormEffect]

/-- C5: `handleTierChange v` sets `tier = v`, marks the tier as changed,
resets the manual-edit flag, clears the autofill key, leaves every other
field alone, and thereby re-arms the autofill effect: on an initialized
form, a subsequent autofill pass with a non-null oracle price overwrites
the price. -/
theorem C5_handleTierChange (s : ModalState) (v : Int) :
    (handleTierChange v s).formData.tier = v
    ∧ (handleTierChange v s).tierChanged = true
    ∧ (handleTierChange v s).userEditedPrice = false
    ∧ (handleTierChange v s).lastPriceUpdate = ""
    ∧ (handleTierChange v s).formData.pricePerUnit = s.formData.pricePerUnit
    ∧ (handleTierChange v s).formData.amount = s.formData.amount
    ∧ (handleTierChange v s).formData.orderType = s.formData.orderType
    ∧ (handleTierChange v s).formInitialized = s.formInitialized
    ∧ (∀ o p, s.formInitialized = true →
        (autofillEffect (some o) (some p) (handleTierChange v s)).formData.pricePerUnit = p
        ∧ (autofillEffect (some o) (some p) (handleTierChange v s)).lastPriceUpdate =
            priceKey o.itemName v (some p)) := by
  refine ⟨rfl, rfl, rfl, rfl, rfl, rfl, rfl, rfl, ?_⟩
  intro o p hInit
  have hkey : (handleTierChange v s).lastPriceUpdate ≠
      priceKey o.itemName (handleTierChange v s).formData.tier (some p) :=
    fun h => priceKey_ne_empty o.itemName v (some p) h.symm
  have hfire := autofillEffect_fires o p (handleTierChange v s)
    (by simpa [handleTierChange] using hInit) hkey rfl rfl
  rw [hfire]
  exact ⟨rfl, rfl⟩

/-- A sample draft state: initialized, tier changed, price untouched. -/
def sArmed : ModalState := ⟨⟨3, 5, 10, "BUY"⟩, false, true, true, ""⟩

/-- A sample draft state whose price was manually edited. -/
def sEdited : ModalState := ⟨⟨5, 99/10, 10, "BUY"⟩, true, true, true, "k"⟩

theorem C2_witness :
    autofillEffect (some oA) (some 9) sArmed =
      { sArmed with
        formData := { sArmed.formData with pricePerUnit := 9 }
        lastPriceUpdate := priceKey oA.itemName sArmed.formData.tier (some 9) }
    ∧ autofillEffect (some oA) (some 9) (resetFormEffect (some oA) initModalState) =
        resetFormEffect (some oA) initModalState :=
  ⟨(C2_autofill_guard oA (some 9) sArmed rfl).2.1 9 rfl
      (fun h => priceKey_ne_empty oA.itemName sArmed.formData.tier (some 9) h.symm) rfl rfl,
   (C2_autofill_guard oA (some 9) (resetFormEffect (some oA) initModalState) rfl).2.2.2.1 rfl⟩

theorem C5_witness :
    (handleTierChange 6 sEdited).formData.tier = 6
    ∧ (handleTierChange 6 sEdited).userEditedPrice = false
    ∧ (handleTierChange 6 sEdited).lastPriceUpdate = ""
    ∧ (autofillEffect (some oA) (some 20) (handleTierChange 6 sEdited)).formData.pricePerUnit = 20 :=
  ⟨(C5_handleTierChange sEdited 6).1,
   (C5_handleTierChange sEdited 6).2.2.1,
   (C5_handleTierChange sEdited 6).2.2.2.1,
   ((C5_handleTierChange sEdited 6).2.2.2.2.2.2.2.2 oA 20 rfl).1⟩

theorem handleOrderStatusUpdate_completed (ev : OrderNotification)
    (orders : List Order) (h : ev.notificationType = "order_completed") :
    handleOrderStatusUpdate ev orders =
      (updateOrderList ev.orderId { status := some "FULFILLED" } orders,
        [⟨1000, ev.orderId⟩]) := by
  simp [handleOrderStatusUpdate, h]

/-- C3: an `order_completed` notification synchronously marks the matching
cached order `FULFILLED` while removing nothing (the id multiset of the
list is unchanged, and a cached order with the notified id is still present
with the new status), and the only removal it causes is the single
scheduled callback with a 1000 ms delay. -/
theorem C3_completed_sync_status_delayed_removal (ev : OrderNotification)
    (orders : List Order) (h : ev.notificationType = "order_completed") :
    (handleOrderStatusUpdate ev orders).1.map (fun o => o.id) =
        orders.map (fun o => o.id)
    ∧ (∀ o ∈ (handleOrderStatusUpdate ev orders).1,
        o.id = ev.orderId → o.status = "FULFILLED")
    ∧ ((∃ o ∈ orders, o.id = ev.orderId) →
        ∃ o ∈ (handleOrderStatusUpdate ev orders).1,
          o.id = ev.orderId ∧ o.status = "FULFILLED")
    ∧ (handleOrderStatusUpdate ev orders).2 = [⟨1000, ev.orderId⟩] := by
  have hred := handleOrderStatusUpdate_completed ev orders h
  refine ⟨?_, ?_, ?_, by rw [hred]⟩
  · rw [hred]
    exact updateOrderList_map_id _ _ _ rfl
  · intro o ho hid
    rw [hred] at ho
    simp only [updateOrderList, List.mem_map] at ho
    obtain ⟨o0, ho0, rfl⟩ := ho
    by_cases hc : o0.id = ev.orderId
    · rw [if_pos hc]; rfl
    · rw [if_neg hc] at hid ⊢
      exact absurd hid hc
  · rintro ⟨o, ho, hid⟩
    refine ⟨applyPatch o { status := some "FULFILLED" }, ?_, ?_, rfl⟩
    · rw [hred]
      simp only [updateOrderList, List.mem_map]
      exact ⟨o, ho, by rw [if_pos hid]⟩
    · rw [applyPatch_id_of_none o _ rfl, hid]

theorem C3_witness :
    (handleOrderStatusUpdate ⟨"a", "order_completed", ⟨"BUY"⟩, none⟩ [oA, oB]).1.map
        (fun o => o.id) = [oA, oB].map (fun o => o.id)
    ∧ (∃ o ∈ (handleOrderStatusUpdate ⟨"a", "order_completed", ⟨"BUY"⟩, none⟩ [oA, oB]).1,
        o.id = "a" ∧ o.status = "FULFILLED")
    ∧ (handleOrderStatusUpdate ⟨"a", "order_completed", ⟨"BUY"⟩, none⟩ [oA, oB]).2 =
        [⟨1000, "a"⟩] :=
  ⟨(C3_completed_sync_status_delayed_removal ⟨"a", "order_completed", ⟨"BUY"⟩, none⟩
      [oA, oB] rfl).1,
   (C3_completed_sync_status_delayed_removal ⟨"a", "order_completed", ⟨"BUY"⟩, none⟩
      [oA, oB] rfl).2.2.1 ⟨oA, by decide, by decide⟩,
   (C3_completed_sync_status_delayed_removal ⟨"a", "order_completed", ⟨"BUY"⟩, none⟩
      [oA, oB] rfl).2.2.2⟩

theorem handleOrderStatusUpdate_claimed (ev : OrderNotification)
    (orders : List Order) (h : ev.notificationType = "order_claimed") :
    handleOrderStatusUpdate ev orders =
      (updateOrderList ev.orderId (claimPatch ev) orders, []) := by
  simp [handleOrderStatusUpdate, h]

/-- C7: an `order_claimed` notification sets the matching cached order's
claimer from the payload and its status to `READY_TO_TRADE` when the
payload's `orderType` is `SELL` and to `IN_PROGRESS` otherwise; a
notification of an unrecognized kind leaves the state completely unchanged
and schedules nothing. -/
theorem C7_claimed_effect_unrecognized_ignored (ev : OrderNotification)
    (orders : List Order) :
    (ev.notificationType = "order_claimed" →
      ∀ i (hi : i < (handleOrderStatusUpdate ev orders).1.length)
        (hj : i < orders.length), orders[i].id = ev.orderId →
          ((handleOrderStatusUpdate ev orders).1[i]).claimer =
              claimerFromPayload ev.claimer
          ∧ ((handleOrderStatusUpdate ev orders).1[i]).status =
              (if ev.orderDetails.orderType = "SELL"
                then "READY_TO_TRADE" else "IN_PROGRESS"))
    ∧ (ev.notificationType ≠ "order_claimed" →
        ev.notificationType ≠ "order_ready" →
        ev.notificationType ≠ "order_completed" →
        ev.notificationType ≠ "order_cancelled" →
        handleOrderStatusUpdate ev orders = (orders, [])) := by
  constructor
  · intro hclaim i hi hj hid
    have hred := handleOrderStatusUpdate_claimed ev orders hclaim
    simp only [hred, updateOrderList, List.getElem_map, hid, if_pos]
    exact ⟨rfl, rfl⟩
  · intro h1 h2 h3 h4
    simp [handleOrderStatusUpdate, h1, h2, h3, h4]

theorem C7_witness :
    ((handleOrderStatusUpdate ⟨"b", "order_claimed", ⟨"SELL"⟩,
        some ⟨"u3", some "carol", none⟩⟩ [oA, oB]).1.get ⟨1, by decide⟩).claimer =
          some ⟨"u3", "carol", none⟩
    ∧ ((handleOrderStatusUpdate ⟨"b", "order_claimed", ⟨"SELL"⟩,
        some ⟨"u3", some "carol", none⟩⟩ [oA, oB]).1.get ⟨1, by decide⟩).status =
          "READY_TO_TRADE"
    ∧ handleOrderStatusUpdate ⟨"a", "order_oops", ⟨"BUY"⟩, none⟩ [oA, oB] =
        ([oA, oB], []) := by
  have hmain := (C7_claimed_effect_unrecognized_ignored
    ⟨"b", "order_claimed", ⟨"SELL"⟩, some ⟨"u3", some "carol", none⟩⟩ [oA, oB]).1
    rfl 1 (by decide) (by decide) (by decide)
  have hother := (C7_claimed_effect_unrecognized_ignored
    ⟨"a", "order_oops", ⟨"BUY"⟩, none⟩ [oA, oB]).2
    (by decide) (by decide) (by decide) (by decide)
  exact ⟨hmain.1, hmain.2, hother⟩

/-- C10: an `order_claimed` notification whose payload carries no claimer
writes `claimer = null` into the matching cached order, clearing any
previously recorded claimer; and when a claimer is present but has no
name, the stored claimer's `discordName` is `"Unknown"`. -/
theorem C10_claimer_null_and_unknown_fallback (ev : OrderNotification)
    (orders : List Order) (h : ev.notificationType = "order_claimed") :
    (ev.claimer = none →
      ∀ i (hi : i < (handleOrderStatusUpdate ev orders).1.length)
        (hj : i < orders.length), orders[i].id = ev.orderId →
          ((handleOrderStatusUpdate ev orders).1[i]).claimer = none)
    ∧ (∀ c, ev.claimer = some c → c.name = none →
      ∀ i (hi : i < (handleOrderStatusUpdate ev orders).1.length)
        (hj : i < orders.length), orders[i].id = ev.orderId →
          ((handleOrderStatusUpdate ev orders).1[i]).claimer =
            some ⟨c.id, "Unknown", c.inGameName⟩) := by
  have hred := handleOrderStatusUpdate_claimed ev orders h
  constructor
  · intro hc i hi hj hid
    simp only [hred, updateOrderList, List.getElem_map, hid, if_pos]
    show (claimPatch ev).claimer.getD (orders[i]).claimer = none
    simp [claimPatch, hc, claimerFromPayload]
  · intro c hc hname i hi hj hid
    simp only [hred, updateOrderList, List.getElem_map, hid, if_pos]
    show (claimPatch ev).claimer.getD (orders[i]).claimer =
      some ⟨c.id, "Unknown", c.inGameName⟩
    simp [claimPatch, hc, claimerFromPayload, nameOrUnknown, hname]

/-- An order whose claimer is set, to exercise the clearing case. -/
def oClaimed : Order :=
  ⟨"c", "bread", 4, 3, 6, "BUY", "IN_PROGRESS", "t2", none,
    ⟨"u1", "alice", none⟩, some ⟨"u9", "zed", none⟩⟩

theorem C10_witness :
    ((handleOrderStatusUpdate ⟨"c", "order_claimed", ⟨"BUY"⟩, none⟩
        [oClaimed]).1.get ⟨0, by decide⟩).claimer = none
    ∧ ((handleOrderStatusUpdate ⟨"c", "order_claimed", ⟨"BUY"⟩,
        some ⟨"u7", none, some "ign"⟩⟩ [oClaimed]).1.get ⟨0, by decide⟩).claimer =
          some ⟨"u7", "Unknown", some "ign"⟩ :=
  ⟨(C10_claimer_null_and_unknown_fallback ⟨"c", "order_claimed", ⟨"BUY"⟩, none⟩
      [oClaimed] rfl).1 rfl 0 (by decide) (by decide) (by decide),
   (C10_claimer_null_and_unknown_fallback ⟨"c", "order_claimed", ⟨"BUY"⟩,
      some ⟨"u7", none, some "ign"⟩⟩ [oClaimed] rfl).2 ⟨"u7", none, some "ign"⟩
      rfl rfl 0 (by decide) (by decide) (by decide)⟩

/-- The in-flight discipline: the number of outstanding network requests is
1 when the in-flight flag is raised and 0 otherwise. -/
def InFlightInv (s : HookState) : Prop :=
  s.pending.length = if s.isLoadingRef then 1 else 0

theorem fetchOrdersCall_inv (s : HookState) (pageNum : Int) (reset hasSession : Bool)
    (h : InFlightInv s) : InFlightInv (fetchOrdersCall s pageNum reset hasSession) := by
  unfold fetchOrdersCall
  split
  · exact h
  · rename_i hg
    simp only [Bool.or_eq_true, not_or] at hg
    have href : s.isLoadingRef = false := by
      cases hb : s.isLoadingRef
      · rfl
      · exact absurd (by rw [hb] : s.isLoadingRef = true) hg.2
    unfold InFlightInv at h ⊢
    rw [href] at h
    simp only [Bool.false_eq_true, if_false] at h
    simp [h]

theorem stepHook_inv (s : HookState) (e : HookEvent) (h : InFlightInv s) :
    InFlightInv (stepHook s e) := by
  cases e with
  | fetchCall pageNum reset hasSession => exact fetchOrdersCall_inv s pageNum reset hasSession h
  | fetchResolve out =>
    show InFlightInv (fetchOrdersResolve s out)
    unfold fetchOrdersResolve
    cases hp : s.pending with
    | nil => exact h
    | cons hd rest =>
      unfold InFlightInv at h
      rw [hp] at h
      have hrest : rest.length = 0 := by
        by_cases hf : s.isLoadingRef
        · rw [if_pos hf] at h; simpa using h
        · rw [if_neg hf] at h; simp at h
      obtain ⟨pageNum, reset⟩ := hd
      cases out with
      | ok resp userFallback => simpa [InFlightInv] using hrest
      | httpError => simpa [InFlightInv] using hrest
      | thrown => simpa [InFlightInv] using hrest
  | loadMore hasSession =>
    show InFlightInv (loadMoreCall s hasSession)
    unfold loadMoreCall
    split
    · exact fetchOrdersCall_inv _ _ _ _ h
    · exact h
  | refetch hasSession =>
    show InFlightInv (refetchCall s hasSession)
    unfold refetchCall
    split
    · exact fetchOrdersCall_inv _ _ _ _ h
    · exact h
  | initialLoad hasSession statusLoading =>
    show InFlightInv (initialLoadEffect s hasSession statusLoading)
    unfold initialLoadEffect
    split
    · exact h
    · split
      · exact fetchOrdersCall_inv _ _ _ _ h
      · exact h
  | notify ev => exact h
  | update orderId updates => exact h
  | remove orderId => exact h
  | timerFire t =>
    show InFlightInv (if t ∈ s.timers then
      { s with orders := removeOrderList t.removeId s.orders,
               timers := s.timers.erase t } else s)
    split
    · exact h
    · exact h

theorem runHook_inv (evs : List HookEvent) (s : HookState) (h : InFlightInv s) :
    InFlightInv (runHook s evs) := by
  induction evs generalizing s with
  | nil => exact h
  | cons e es ih => exact ih (stepHook s e) (stepHook_inv s e h)

/-- C8: along every event sequence from the mount state, at most one fetch
is in flight; and a `fetchOrders` call issued while the in-flight flag is
raised is a complete no-op: the state (in particular the request multiset)
is exactly unchanged, so nothing is queued or run later. -/
theorem C8_inflight_coalescing (evs : List HookEvent) (pageNum : Int)
    (reset hasSession : Bool)
    (h : (runHook initState evs).isLoadingRef = true) :
    (∀ evs2, (runHook initState evs2).pending.length ≤ 1)
    ∧ stepHook (runHook initState evs) (.fetchCall pageNum reset hasSession) =
        runHook initState evs := by
  constructor
  · intro evs2
    have hinv := runHook_inv evs2 initState (by simp [InFlightInv, initState])
    unfold InFlightInv at hinv
    rw [hinv]
    split <;> omega
  · show fetchOrdersCall (runHook initState evs) pageNum reset hasSession = _
    unfold fetchOrdersCall
    rw [if_pos (by rw [h]; simp)]

theorem C8_witness :
    (runHook initState []).pending.length ≤ 1
    ∧ stepHook (runHook initState [HookEvent.fetchCall 1 true true])
        (.fetchCall 2 false true) = runHook initState [HookEvent.fetchCall 1 true true] :=
  ⟨(C8_inflight_coalescing [HookEvent.fetchCall 1 true true] 2 false true (by decide)).1 [],
   (C8_inflight_coalescing [HookEvent.fetchCall 1 true true] 2 false true (by decide)).2⟩

/-- One full `fetchOrders` round trip: the synchronous prefix followed by
the settlement of the request it issued. -/
def loadRoundTrip (s : HookState) (pageNum : Int) (reset hasSession : Bool)
    (out : FetchOutcome) : HookState :=
  fetchOrdersResolve (fetchOrdersCall s pageNum reset hasSession) out

/-- C9: for every page number, a load whose fetch fails (non-ok response or
thrown error) leaves `orders`, `page`, `totalCount`, `hasMore` (and
`currentUser`) exactly as they were, clears the loading flag and the
in-flight flag, and leaves no request outstanding; the step function
returns normally, surfacing no error to the caller. -/
theorem C9_failed_load_keeps_state (s : HookState) (pageNum : Int) (reset : Bool)
    (out : FetchOutcome) (h1 : s.isLoadingRef = false) (h2 : s.pending = [])
    (h3 : out = .httpError ∨ out = .thrown) :
    (loadRoundTrip s pageNum reset true out).orders = s.orders
    ∧ (loadRoundTrip s pageNum reset true out).page = s.page
    ∧ (loadRoundTrip s pageNum reset true out).totalCount = s.totalCount
    ∧ (loadRoundTrip s pageNum reset true out).hasMore = s.hasMore
    ∧ (loadRoundTrip s pageNum reset true out).currentUser = s.currentUser
    ∧ (loadRoundTrip s pageNum reset true out).loading = false
    ∧ (loadRoundTrip s pageNum reset true out).isLoadingRef = false
    ∧ (loadRoundTrip s pageNum reset true out).pending = [] := by
  have hcall : fetchOrdersCall s pageNum reset true =
      { s with isLoadingRef := true, loading := pageNum == 1,
               pending := s.pending ++ [(pageNum, reset)] } := by
    unfold fetchOrdersCall
    rw [if_neg (by simp [h1])]
  rcases h3 with rfl | rfl <;>
    simp [loadRoundTrip, hcall, fetchOrdersResolve, h2]

theorem C9_witness :
    (loadRoundTrip initState 1 true true .httpError).orders = initState.orders
    ∧ (loadRoundTrip initState 1 true true .httpError).page = initState.page
    ∧ (loadRoundTrip initState 1 true true .httpError).totalCount = initState.totalCount
    ∧ (loadRoundTrip initState 1 true true .httpError).hasMore = initState.hasMore
    ∧ (loadRoundTrip initState 1 true true .httpError).currentUser = initState.currentUser
    ∧ (loadRoundTrip initState 1 true true .httpError).loading = false
    ∧ (loadRoundTrip initState 1 true true .httpError).isLoadingRef = false
    ∧ (loadRoundTrip initState 1 true true .httpError).pending = [] :=
  C9_failed_load_keeps_state initState 1 true .httpError rfl rfl (Or.inl rfl)

/-- The cache invariant claimed by the spec: at most one entry per id. -/
def NoDupIds (l : List Order) : Prop :=
  (l.map (fun o => o.id)).Nodup

instance (l : List Order) : Decidable (NoDupIds l) :=
  inferInstanceAs (Decidable ((l.map (fun o : Order => o.id)).Nodup))

theorem NoDupIds_updateOrderList (orderId : String) (p : OrderPatch)
    (l : List Order) (hid : p.id = none) (h : NoDupIds l) :
    NoDupIds (updateOrderList orderId p l) := by
  unfold NoDupIds at h ⊢
  rw [updateOrderList_map_id _ _ _ hid]
  exact h

theorem NoDupIds_removeOrderList (orderId : String) (l : List Order)
    (h : NoDupIds l) : NoDupIds (removeOrderList orderId l) := by
  unfold NoDupIds at h ⊢
  exact List.Nodup.sublist (List.Sublist.map _ (List.filter_sublist l)) h

theorem NoDupIds_handle (ev : OrderNotification) (l : List Order)
    (h : NoDupIds l) : NoDupIds (handleOrderStatusUpdate ev l).1 := by
  unfold handleOrderStatusUpdate
  split_ifs <;>
    first
    | exact NoDupIds_updateOrderList _ _ _ rfl h
    | exact h

theorem fetchOrdersCall_orders (s : HookState) (pageNum : Int)
    (reset hasSession : Bool) :
    (fetchOrdersCall s pageNum reset hasSession).orders = s.orders := by
  unfold fetchOrdersCall
  split <;> rfl

/-- Side condition under which one event preserves the no-duplicate
invariant: a page-1 (or reset) response must itself be duplicate-free, an
appended page must be duplicate-free and id-disjoint from the cache, and a
direct `updateOrder` patch must not rewrite the id field; all other events
need nothing. -/
def stepOk (s : HookState) : HookEvent → Bool
  | .fetchResolve (.ok resp _) =>
    match s.pending with
    | [] => true
    | (pageNum, reset) :: _ =>
      if reset || pageNum == 1 then decide (NoDupIds resp.orders)
      else decide (NoDupIds resp.orders) &&
        resp.orders.all fun o => s.orders.all fun o2 => !(o.id == o2.id)
  | .update _ updates => updates.id == none
  | _ => true

/-- `stepOk` holding along a whole event sequence. -/
def stepsOk (s : HookState) : List HookEvent → Bool
  | [] => true
  | e :: es => stepOk s e && stepsOk (stepHook s e) es

theorem stepHook_nodup (s : HookState) (e : HookEvent) (h : NoDupIds s.orders)
    (hok : stepOk s e = true) : NoDupIds (stepHook s e).orders := by
  cases e with
  | fetchCall pageNum reset hasSession =>
    show NoDupIds (fetchOrdersCall s pageNum reset hasSession).orders
    rw [fetchOrdersCall_orders]
    exact h
  | fetchResolve out =>
    show NoDupIds (fetchOrdersResolve s out).orders
    unfold fetchOrdersResolve
    cases hp : s.pending with
    | nil => exact h
    | cons hd rest =>
      obtain ⟨pageNum, reset⟩ := hd
      cases out with
      | ok resp userFallback =>
        unfold stepOk at hok
        rw [hp] at hok
        dsimp only [] at hok
        show NoDupIds (if reset || pageNum == 1 then resp.orders
          else s.orders ++ resp.orders)
        by_cases hcond : (reset || pageNum == 1) = true
        · rw [if_pos hcond] at hok ⊢
          exact of_decide_eq_true hok
        · rw [if_neg hcond] at hok ⊢
          simp only [Bool.and_eq_true, decide_eq_true_eq] at hok
          obtain ⟨hnd, hall⟩ := hok
          unfold NoDupIds at h hnd ⊢
          rw [List.map_append, List.nodup_append]
          refine ⟨h, hnd, fun a ha hb => ?_⟩
          rw [List.mem_map] at ha hb
          obtain ⟨o2, ho2, rfl⟩ := ha
          obtain ⟨o, ho, hoid⟩ := hb
          rw [List.all_eq_true] at hall
          have h5 := hall o ho
          rw [List.all_eq_true] at h5
          have h6 := h5 o2 ho2
          simp only [Bool.not_eq_eq_eq_not, Bool.not_true, beq_eq_false_iff_ne,
            ne_eq] at h6
          exact h6 hoid
      | httpError => exact h
      | thrown => exact h
  | loadMore hasSession =>
    show NoDupIds (loadMoreCall s hasSession).orders
    unfold loadMoreCall
    split
    · rw [fetchOrdersCall_orders]; exact h
    · exact h
  | refetch hasSession =>
    show NoDupIds (refetchCall s hasSession).orders
    unfold refetchCall
    split
    · rw [fetchOrdersCall_orders]; exact h
    · exact h
  | initialLoad hasSession statusLoading =>
    show NoDupIds (initialLoadEffect s hasSession statusLoading).orders
    unfold initialLoadEffect
    split
    · exact h
    · split
      · rw [fetchOrdersCall_orders]; exact h
      · exact h
  | notify ev => exact NoDupIds_handle ev s.orders h
  | update orderId updates =>
    exact NoDupIds_updateOrderList _ _ _ (by simpa [stepOk] using hok) h
  | remove orderId => exact NoDupIds_removeOrderList _ _ h
  | timerFire t =>
    show NoDupIds (if t ∈ s.timers then
      { s with orders := removeOrderList t.removeId s.orders,
               timers := s.timers.erase t } else s).orders
    split
    · exact NoDupIds_removeOrderList _ _ h
    · exact h

theorem runHook_nodup (evs : List HookEvent) (s : HookState)
    (h : NoDupIds s.orders) (hok : stepsOk s evs = true) :
    NoDupIds (runHook s evs).orders := by
  induction evs generalizing s with
  | nil => exact h
  | cons e es ih =>
    unfold stepsOk at hok
    rw [Bool.and_eq_true] at hok
    exact ih (stepHook s e) (stepHook_nodup s e h hok.1) hok.2

/-- A trace in which page 2 returns an order whose id is already cached. -/
def dupTrace : List HookEvent :=
  [.fetchCall 1 true true,
   .fetchResolve (.ok ⟨[oA], 1, true, 1, 50, none⟩ none),
   .fetchCall 2 false true,
   .fetchResolve (.ok ⟨[oA], 1, false, 2, 50, none⟩ none)]

/-- C1 fails as stated: appending a fetched page whose ids overlap the
cached list duplicates the entry, because the page-append is a blind list
concatenation. -/
theorem C1_counterexample :
    (runHook initState dupTrace).orders = [oA, oA]
    ∧ ¬ NoDupIds (runHook initState dupTrace).orders := by
  constructor
  · decide
  · decide

/-- C1 (amended): for every sequence of load, updateOrder and removeOrder
operations from the empty cache in which every page-1 (reset) response is
duplicate-free, every appended page is duplicate-free and id-disjoint from
the cache it is appended to, and no updateOrder patch rewrites the id
field, the resulting list contains at most one entry per id. -/
theorem C1_amended_nodup (evs : List HookEvent)
    (h : stepsOk initState evs = true) :
    NoDupIds (runHook initState evs).orders :=
  runHook_nodup evs initState (by simp [NoDupIds, initState]) h

/-- A well-behaved trace: disjoint pages, id-preserving update, a removal. -/
def goodTrace : List HookEvent :=
  [.fetchCall 1 true true,
   .fetchResolve (.ok ⟨[oA, oB], 3, true, 1, 50, none⟩ none),
   .fetchCall 2 false true,
   .fetchResolve (.ok ⟨[oClaimed], 3, false, 2, 50, none⟩ none),
   .update "a" pStatus,
   .remove "b"]

theorem C1_amended_witness : NoDupIds (runHook initState goodTrace).orders :=
  C1_amended_nodup goodTrace (by decide)
